import Mathlib

set_option maxRecDepth 8192

/-! Shallow embedding of the monotonic UUID version 7 generator of
`universal/src/utils/boost_uuid7.cpp` together with the hex string entry point of
`universal/src/utils/uuid7.cpp`.

The C++ generator is a small state machine over `sequence_counter_` (uint32) and
`prev_timestamp_` (uint64), driven by two external inputs per call: the wall clock
reading `CurrentUnixTimestamp()` (a uint64 count of milliseconds) and a stream of
uniform u64 random draws from the bound `variate_generator`.  Both inputs are made
explicit parameters here: the clock reading is a `Nat` reduced modulo `2 ^ 64` and
the random source is a stream `draws : Nat → Nat` whose position is part of the
state, so that every definition is an executable function. Machine integers are
`Nat` with explicit `% 2 ^ w` reductions at the points where the C++ arithmetic
wraps; a `static_cast<uint8_t>` is `% 256`. -/

namespace BoostUuid7

/-- `kMaxSequenceCounterValue`: largest value of the 18-bit monotonicity counter. -/
def kMaxSequenceCounterValue : Nat := 0x3FFFF

/-- State of one generator instance: `sequence_counter_` (uint32), `prev_timestamp_`
(uint64) and the position of the next unconsumed u64 of the random stream, which
models the state of the bound `variate_generator`. -/
structure UuidV7State where
  sequence_counter : Nat
  prev_timestamp : Nat
  rngPos : Nat
deriving Repr, DecidableEq

/-- The members are value-initialized: `sequence_counter_{0}`, `prev_timestamp_{0}`;
the random stream starts at position 0. -/
def initialState : UuidV7State := ⟨0, 0, 0⟩

/-- Loop of `UuidV7Generator::GenerateRandomBlock`, one step per byte still to
write.  The accumulator mirrors the loop variables: `i` counts bytes consumed from
the current draw `rnd_value`, a fresh u64 is drawn whenever `i` reaches 8, and each
byte written is `(rnd_value >> (i * 8)) & 0xFF`.  Returns the bytes written and the
stream position after the loop. -/
def generateRandomBlockAux (draws : Nat → Nat) : Nat → Nat → Nat → Nat → List Nat × Nat
  | 0, _, _, pos => ([], pos)
  | Nat.succ n, i, rnd_value, pos =>
    if i = 8 then
      let rnd2 := draws pos % 2 ^ 64
      let rest := generateRandomBlockAux draws n 1 rnd2 (pos + 1)
      ((rnd2 >>> (0 * 8) &&& 0xFF) :: rest.1, rest.2)
    else
      let rest := generateRandomBlockAux draws n (i + 1) rnd_value pos
      ((rnd_value >>> (i * 8) &&& 0xFF) :: rest.1, rest.2)

/-- `UuidV7Generator::GenerateRandomBlock` on a block of `n` bytes: one u64 is drawn
before the loop, then the loop of `generateRandomBlockAux` runs with `i = 0`. -/
def generateRandomBlock (draws : Nat → Nat) (pos n : Nat) : List Nat × Nat :=
  generateRandomBlockAux draws n 0 (draws pos % 2 ^ 64) (pos + 1)

/-- The eight bytes of the uint64 `v` in big-endian order: the byte image of
`htobe64 v` in memory, most significant byte first. -/
def htobe64bytes (v : Nat) : List Nat :=
  (List.range 8).map fun i => v >>> ((7 - i) * 8) % 256

/-- Timestamp write of `UuidV7Generator`: `htobe64(current_timestamp << 16)` (uint64
shift, wrapping modulo `2 ^ 64`) followed by `memcpy(&uuid.data[0], ..., 6)`, which
replaces the first six bytes of the buffer and leaves the rest untouched. -/
def writeTimestampV1 (t : Nat) (u : List Nat) : List Nat :=
  (htobe64bytes ((t <<< 16) % 2 ^ 64)).take 6 ++ u.drop 6

/-- Timestamp write of `UuidV7GeneratorV2`: six single-byte stores
`uuid.data[i] = static_cast<uint8_t>(current_timestamp >> (40 - 8 * i))`. -/
def writeTimestampV2 (t : Nat) (u : List Nat) : List Nat :=
  (((((u.set 0 (t >>> 40 % 256)).set 1 (t >>> 32 % 256)).set 2
      (t >>> 24 % 256)).set 3 (t >>> 16 % 256)).set 4 (t >>> 8 % 256)).set 5 (t % 256)

/-- `UuidV7Generator::operator()`.  `now` is the uint64 returned by
`CurrentUnixTimestamp()` for this call.  The three inner `if`s correspond to the
single rollover test `sequence_counter_ > kMaxSequenceCounterValue` of the source;
the counter seed on the fresh branch is a sum of values below `2 ^ 17`, `2 ^ 14`
and `2 ^ 6`, so the uint32 additions cannot wrap and carry no reduction. -/
def UuidV7Generator.generate (draws : Nat → Nat) (now : Nat) (s : UuidV7State) :
    List Nat × UuidV7State :=
  let uuid0 : List Nat := List.replicate 16 0
  let current0 := now % 2 ^ 64
  if current0 ≤ s.prev_timestamp then
    let c1 := (s.sequence_counter + 1) % 2 ^ 32
    let c := if kMaxSequenceCounterValue < c1 then 0 else c1
    let prev2 := if kMaxSequenceCounterValue < c1 then (s.prev_timestamp + 1) % 2 ^ 64
      else s.prev_timestamp
    let current := if kMaxSequenceCounterValue < c1 then prev2 else current0
    let blk := generateRandomBlock draws s.rngPos 8
    let u1 := uuid0.take 8 ++ blk.1
    let u2 := ((u1.set 6 (c >>> 14 % 256)).set 7 (c >>> 6 % 256)).set 8 (c % 256)
    let u3 := writeTimestampV1 current u2
    let u4 := u3.set 6 ((u3.getD 6 0 &&& 0x0F) ||| 0x70)
    let u5 := u4.set 8 ((u4.getD 8 0 &&& 0x3F) ||| 0x80)
    (u5, ⟨c, prev2, blk.2⟩)
  else
    let blk := generateRandomBlock draws s.rngPos 10
    let u1 := uuid0.take 6 ++ blk.1
    let u2 := u1.set 6 (u1.getD 6 0 &&& 0xF7)
    let c := (u2.getD 6 0 &&& 0x0F) <<< 14 + (u2.getD 7 0) <<< 6 + (u2.getD 8 0 &&& 0x3F)
    let u3 := writeTimestampV1 current0 u2
    let u4 := u3.set 6 ((u3.getD 6 0 &&& 0x0F) ||| 0x70)
    let u5 := u4.set 8 ((u4.getD 8 0 &&& 0x3F) ||| 0x80)
    (u5, ⟨c, current0, blk.2⟩)

/-- `UuidV7GeneratorV2::operator()`: textually identical to
`UuidV7Generator::operator()` except that the timestamp is written byte by byte. -/
def UuidV7GeneratorV2.generate (draws : Nat → Nat) (now : Nat) (s : UuidV7State) :
    List Nat × UuidV7State :=
  let uuid0 : List Nat := List.replicate 16 0
  let current0 := now % 2 ^ 64
  if current0 ≤ s.prev_timestamp then
    let c1 := (s.sequence_counter + 1) % 2 ^ 32
    let c := if kMaxSequenceCounterValue < c1 then 0 else c1
    let prev2 := if kMaxSequenceCounterValue < c1 then (s.prev_timestamp + 1) % 2 ^ 64
      else s.prev_timestamp
    let current := if kMaxSequenceCounterValue < c1 then prev2 else current0
    let blk := generateRandomBlock draws s.rngPos 8
    let u1 := uuid0.take 8 ++ blk.1
    let u2 := ((u1.set 6 (c >>> 14 % 256)).set 7 (c >>> 6 % 256)).set 8 (c % 256)
    let u3 := writeTimestampV2 current u2
    let u4 := u3.set 6 ((u3.getD 6 0 &&& 0x0F) ||| 0x70)
    let u5 := u4.set 8 ((u4.getD 8 0 &&& 0x3F) ||| 0x80)
    (u5, ⟨c, prev2, blk.2⟩)
  else
    let blk := generateRandomBlock draws s.rngPos 10
    let u1 := uuid0.take 6 ++ blk.1
    let u2 := u1.set 6 (u1.getD 6 0 &&& 0xF7)
    let c := (u2.getD 6 0 &&& 0x0F) <<< 14 + (u2.getD 7 0) <<< 6 + (u2.getD 8 0 &&& 0x3F)
    let u3 := writeTimestampV2 current0 u2
    let u4 := u3.set 6 ((u3.getD 6 0 &&& 0x0F) ||| 0x70)
    let u5 := u4.set 8 ((u4.getD 8 0 &&& 0x3F) ||| 0x80)
    (u5, ⟨c, current0, blk.2⟩)

/-- A sequence of calls on one `UuidV7Generator` instance, one clock reading per
call: returns the emitted UUIDs in order and the final state. -/
def UuidV7Generator.run (draws : Nat → Nat) (nows : List Nat) (s : UuidV7State) :
    List (List Nat) × UuidV7State :=
  match nows with
  | [] => ([], s)
  | t :: rest =>
    let r := UuidV7Generator.generate draws t s
    let rr := UuidV7Generator.run draws rest r.2
    (r.1 :: rr.1, rr.2)

/-- A sequence of calls on one `UuidV7GeneratorV2` instance. -/
def UuidV7GeneratorV2.run (draws : Nat → Nat) (nows : List Nat) (s : UuidV7State) :
    List (List Nat) × UuidV7State :=
  match nows with
  | [] => ([], s)
  | t :: rest =>
    let r := UuidV7GeneratorV2.generate draws t s
    let rr := UuidV7GeneratorV2.run draws rest r.2
    (r.1 :: rr.1, rr.2)

/-- A 16-byte UUID read as a big-endian 128-bit integer; for byte lists this is the
comparison order of `boost::uuids::uuid::operator<` (lexicographic memcmp). -/
def uuidVal (u : List Nat) : Nat := u.foldl (fun a b => a * 256 + b) 0

/-- The 48-bit big-endian `unix_ts_ms` field: bytes 0..5. -/
def tsField (u : List Nat) : Nat := uuidVal (u.take 6)

/-- Lower-case hex digit for a value below 16: `0`..`9` then `a`..`f`. -/
def hexDigit (n : Nat) : Char := if n < 10 then Char.ofNat (48 + n) else Char.ofNat (87 + n)

/-- Modelled from the spec: `encoding::ToHex` (its source is not under `src/`), which
renders bytes as lower-case hex, two digits per byte, most significant digit first,
with no separators. -/
def toHexChars : List Nat → List Char
  | [] => []
  | b :: rest => hexDigit (b / 16) :: hexDigit (b % 16) :: toHexChars rest

/-- Modelled from the spec: the string produced by `encoding::ToHex` over a byte
range. -/
def ToHex (bytes : List Nat) : String := ⟨toHexChars bytes⟩

/-- `GenerateUuid7` of `uuid7.cpp`: the hex rendering of one `GenerateBoostUuid7()`
result, with the generator state and inputs explicit. -/
def GenerateUuid7 (draws : Nat → Nat) (now : Nat) (s : UuidV7State) : String :=
  ToHex (UuidV7Generator.generate draws now s).1

/-- Numeric value of a lower-case hex digit character. -/
def hexVal (c : Char) : Nat := if c.toNat ≤ 57 then c.toNat - 48 else c.toNat - 87

/-- Decode a hex character list two characters per byte. -/
def decodeHexChars : List Char → List Nat
  | c1 :: c2 :: rest => (hexVal c1 * 16 + hexVal c2) :: decodeHexChars rest
  | _ => []

/-- Decode a hex string into its bytes. -/
def hexDecode (s : String) : List Nat := decodeHexChars s.data

/-- Whether a character is one of `0`..`9`, `a`..`f`. -/
def isLowerHexDigit (c : Char) : Bool :=
  (48 ≤ c.toNat && c.toNat ≤ 57) || (97 ≤ c.toNat && c.toNat ≤ 102)

/-- The 6 bytes that the spec says the timestamp write must produce: the low 48 bits
of the emitted timestamp in big-endian byte order. -/
def tsBytesBE48 (t : Nat) : List Nat :=
  (List.range 6).map fun i => (t % 2 ^ 48) >>> ((5 - i) * 8) % 256

/-- Byte `k` of the u64 drawn at position `pos`, as produced by the block filler. -/
def rndByte (draws : Nat → Nat) (pos k : Nat) : Nat :=
  (draws pos % 2 ^ 64) >>> (k * 8) &&& 0xFF

/-- Byte `i` of the V1 timestamp write for emitted timestamp `t`. -/
def tsByteV1 (t i : Nat) : Nat := ((t <<< 16) % 2 ^ 64) >>> ((7 - i) * 8) % 256

end BoostUuid7

namespace BoostUuid7

theorem and_0xFF_eq_mod (x : Nat) : x &&& 0xFF = x % 256 :=
  Nat.and_pow_two_sub_one_eq_mod x 8

theorem and_0x0F_eq_mod (x : Nat) : x &&& 0x0F = x % 16 :=
  Nat.and_pow_two_sub_one_eq_mod x 4

theorem and_0x3F_eq_mod (x : Nat) : x &&& 0x3F = x % 64 :=
  Nat.and_pow_two_sub_one_eq_mod x 6

theorem and_0xF7_and_0x0F (x : Nat) : (x &&& 0xF7) &&& 0x0F = x % 8 := by
  rw [Nat.land_assoc, show ((0xF7 : Nat) &&& 0x0F) = 0x07 from by decide]
  exact Nat.and_pow_two_sub_one_eq_mod x 3

theorem or_0x70_eq_add (x : Nat) (h : x < 16) : x ||| 0x70 = 112 + x := by
  have bridge : ∀ v : Fin 16, (v : Nat) ||| 0x70 = 112 + (v : Nat) := by decide
  exact bridge ⟨x, h⟩

theorem or_0x80_eq_add (x : Nat) (h : x < 64) : x ||| 0x80 = 128 + x := by
  have bridge : ∀ v : Fin 64, (v : Nat) ||| 0x80 = 128 + (v : Nat) := by decide
  exact bridge ⟨x, h⟩

theorem rndByte_lt (draws : Nat → Nat) (pos k : Nat) : rndByte draws pos k < 256 := by
  have h := and_0xFF_eq_mod ((draws pos % 2 ^ 64) >>> (k * 8))
  unfold rndByte
  omega

/-- The 8-byte random block: one u64 draw, its eight bytes little-end first. -/
theorem generateRandomBlock_eight (draws : Nat → Nat) (pos : Nat) :
    generateRandomBlock draws pos 8 =
      ([rndByte draws pos 0, rndByte draws pos 1, rndByte draws pos 2,
        rndByte draws pos 3, rndByte draws pos 4, rndByte draws pos 5,
        rndByte draws pos 6, rndByte draws pos 7], pos + 1) := by
  simp [generateRandomBlock, generateRandomBlockAux, rndByte]

/-- The 10-byte random block: two u64 draws, eight bytes of the first and the two
low bytes of the second. -/
theorem generateRandomBlock_ten (draws : Nat → Nat) (pos : Nat) :
    generateRandomBlock draws pos 10 =
      ([rndByte draws pos 0, rndByte draws pos 1, rndByte draws pos 2,
        rndByte draws pos 3, rndByte draws pos 4, rndByte draws pos 5,
        rndByte draws pos 6, rndByte draws pos 7,
        rndByte draws (pos + 1) 0, rndByte draws (pos + 1) 1], pos + 2) := by
  simp [generateRandomBlock, generateRandomBlockAux, rndByte]

/-- Tail of the block loop after one byte of an 8-byte block has been written. -/
theorem generateRandomBlockAux_seven (draws : Nat → Nat) (pos : Nat) :
    generateRandomBlockAux draws 7 1 (draws pos % 2 ^ 64) (pos + 1) =
      ([rndByte draws pos 1, rndByte draws pos 2, rndByte draws pos 3, rndByte draws pos 4,
        rndByte draws pos 5, rndByte draws pos 6, rndByte draws pos 7], pos + 1) := by
  simp [generateRandomBlockAux, rndByte]

/-- Tail of the block loop after one byte of a 10-byte block has been written. -/
theorem generateRandomBlockAux_nine (draws : Nat → Nat) (pos : Nat) :
    generateRandomBlockAux draws 9 1 (draws pos % 2 ^ 64) (pos + 1) =
      ([rndByte draws pos 1, rndByte draws pos 2, rndByte draws pos 3, rndByte draws pos 4,
        rndByte draws pos 5, rndByte draws pos 6, rndByte draws pos 7,
        rndByte draws (pos + 1) 0, rndByte draws (pos + 1) 1], pos + 2) := by
  simp [generateRandomBlockAux, rndByte]

/-- Normal form of a fresh-branch call of `UuidV7Generator`. -/
theorem generate_fresh (draws : Nat → Nat) (now : Nat) (s : UuidV7State)
    (h : s.prev_timestamp < now % 2 ^ 64) :
    UuidV7Generator.generate draws now s =
      ([tsByteV1 (now % 2 ^ 64) 0, tsByteV1 (now % 2 ^ 64) 1, tsByteV1 (now % 2 ^ 64) 2,
        tsByteV1 (now % 2 ^ 64) 3, tsByteV1 (now % 2 ^ 64) 4, tsByteV1 (now % 2 ^ 64) 5,
        ((rndByte draws s.rngPos 0 &&& 0xF7) &&& 0x0F) ||| 0x70,
        rndByte draws s.rngPos 1,
        (rndByte draws s.rngPos 2 &&& 0x3F) ||| 0x80,
        rndByte draws s.rngPos 3, rndByte draws s.rngPos 4, rndByte draws s.rngPos 5,
        rndByte draws s.rngPos 6, rndByte draws s.rngPos 7,
        rndByte draws (s.rngPos + 1) 0, rndByte draws (s.rngPos + 1) 1],
       ⟨(rndByte draws s.rngPos 0 &&& 0xF7 &&& 0x0F) <<< 14 +
          (rndByte draws s.rngPos 1) <<< 6 + (rndByte draws s.rngPos 2 &&& 0x3F),
        now % 2 ^ 64, s.rngPos + 2⟩) := by
  rw [UuidV7Generator.generate]
  rw [if_neg (by omega)]
  simp [generateRandomBlock, generateRandomBlockAux, rndByte, writeTimestampV1,
    htobe64bytes, tsByteV1, List.set, List.getD, List.replicate, List.range_succ]

/-- Normal form of a stalled-branch call of `UuidV7Generator` without counter
rollover: the counter advances to `c1` and the emitted timestamp is the (possibly
backward) clock reading itself. -/
theorem generate_stalled (draws : Nat → Nat) (now : Nat) (s : UuidV7State)
    (h : now % 2 ^ 64 ≤ s.prev_timestamp)
    (hc : (s.sequence_counter + 1) % 2 ^ 32 ≤ kMaxSequenceCounterValue) :
    UuidV7Generator.generate draws now s =
      ([tsByteV1 (now % 2 ^ 64) 0, tsByteV1 (now % 2 ^ 64) 1, tsByteV1 (now % 2 ^ 64) 2,
        tsByteV1 (now % 2 ^ 64) 3, tsByteV1 (now % 2 ^ 64) 4, tsByteV1 (now % 2 ^ 64) 5,
        ((((s.sequence_counter + 1) % 2 ^ 32) >>> 14 % 256) &&& 0x0F) ||| 0x70,
        ((s.sequence_counter + 1) % 2 ^ 32) >>> 6 % 256,
        ((((s.sequence_counter + 1) % 2 ^ 32) % 256) &&& 0x3F) ||| 0x80,
        rndByte draws s.rngPos 1, rndByte draws s.rngPos 2, rndByte draws s.rngPos 3,
        rndByte draws s.rngPos 4, rndByte draws s.rngPos 5, rndByte draws s.rngPos 6,
        rndByte draws s.rngPos 7],
       ⟨(s.sequence_counter + 1) % 2 ^ 32, s.prev_timestamp, s.rngPos + 1⟩) := by
  rw [UuidV7Generator.generate]
  rw [if_pos h]
  simp only [if_neg (by omega : ¬ kMaxSequenceCounterValue < (s.sequence_counter + 1) % 2 ^ 32)]
  simp [generateRandomBlock, generateRandomBlockAux, rndByte, writeTimestampV1,
    htobe64bytes, tsByteV1, List.set, List.getD, List.replicate, List.range_succ]

/-- Normal form of a stalled-branch call of `UuidV7Generator` with counter rollover:
the counter resets to 0 and the emitted timestamp is the advanced `prev_timestamp`. -/
theorem generate_rollover (draws : Nat → Nat) (now : Nat) (s : UuidV7State)
    (h : now % 2 ^ 64 ≤ s.prev_timestamp)
    (hc : kMaxSequenceCounterValue < (s.sequence_counter + 1) % 2 ^ 32) :
    UuidV7Generator.generate draws now s =
      ([tsByteV1 ((s.prev_timestamp + 1) % 2 ^ 64) 0,
        tsByteV1 ((s.prev_timestamp + 1) % 2 ^ 64) 1,
        tsByteV1 ((s.prev_timestamp + 1) % 2 ^ 64) 2,
        tsByteV1 ((s.prev_timestamp + 1) % 2 ^ 64) 3,
        tsByteV1 ((s.prev_timestamp + 1) % 2 ^ 64) 4,
        tsByteV1 ((s.prev_timestamp + 1) % 2 ^ 64) 5,
        0x70, 0, 0x80,
        rndByte draws s.rngPos 1, rndByte draws s.rngPos 2, rndByte draws s.rngPos 3,
        rndByte draws s.rngPos 4, rndByte draws s.rngPos 5, rndByte draws s.rngPos 6,
        rndByte draws s.rngPos 7],
       ⟨0, (s.prev_timestamp + 1) % 2 ^ 64, s.rngPos + 1⟩) := by
  rw [UuidV7Generator.generate]
  rw [if_pos h]
  simp only [if_pos hc]
  simp [generateRandomBlock, generateRandomBlockAux, rndByte, writeTimestampV1,
    htobe64bytes, tsByteV1, List.set, List.getD, List.replicate, List.range_succ]

/-- Byte `i` of the V2 timestamp write for emitted timestamp `t`. -/
def tsByteV2 (t i : Nat) : Nat := t >>> ((5 - i) * 8) % 256

/-- Normal form of a fresh-branch call of `UuidV7GeneratorV2`. -/
theorem generateV2_fresh (draws : Nat → Nat) (now : Nat) (s : UuidV7State)
    (h : s.prev_timestamp < now % 2 ^ 64) :
    UuidV7GeneratorV2.generate draws now s =
      ([tsByteV2 (now % 2 ^ 64) 0, tsByteV2 (now % 2 ^ 64) 1, tsByteV2 (now % 2 ^ 64) 2,
        tsByteV2 (now % 2 ^ 64) 3, tsByteV2 (now % 2 ^ 64) 4, tsByteV2 (now % 2 ^ 64) 5,
        ((rndByte draws s.rngPos 0 &&& 0xF7) &&& 0x0F) ||| 0x70,
        rndByte draws s.rngPos 1,
        (rndByte draws s.rngPos 2 &&& 0x3F) ||| 0x80,
        rndByte draws s.rngPos 3, rndByte draws s.rngPos 4, rndByte draws s.rngPos 5,
        rndByte draws s.rngPos 6, rndByte draws s.rngPos 7,
        rndByte draws (s.rngPos + 1) 0, rndByte draws (s.rngPos + 1) 1],
       ⟨(rndByte draws s.rngPos 0 &&& 0xF7 &&& 0x0F) <<< 14 +
          (rndByte draws s.rngPos 1) <<< 6 + (rndByte draws s.rngPos 2 &&& 0x3F),
        now % 2 ^ 64, s.rngPos + 2⟩) := by
  rw [UuidV7GeneratorV2.generate]
  rw [if_neg (by omega)]
  simp [generateRandomBlock, generateRandomBlockAux, rndByte, writeTimestampV2,
    tsByteV2, List.set, List.getD, List.replicate, List.range_succ]

/-- Normal form of a stalled-branch call of `UuidV7GeneratorV2` without rollover. -/
theorem generateV2_stalled (draws : Nat → Nat) (now : Nat) (s : UuidV7State)
    (h : now % 2 ^ 64 ≤ s.prev_timestamp)
    (hc : (s.sequence_counter + 1) % 2 ^ 32 ≤ kMaxSequenceCounterValue) :
    UuidV7GeneratorV2.generate draws now s =
      ([tsByteV2 (now % 2 ^ 64) 0, tsByteV2 (now % 2 ^ 64) 1, tsByteV2 (now % 2 ^ 64) 2,
        tsByteV2 (now % 2 ^ 64) 3, tsByteV2 (now % 2 ^ 64) 4, tsByteV2 (now % 2 ^ 64) 5,
        ((((s.sequence_counter + 1) % 2 ^ 32) >>> 14 % 256) &&& 0x0F) ||| 0x70,
        ((s.sequence_counter + 1) % 2 ^ 32) >>> 6 % 256,
        ((((s.sequence_counter + 1) % 2 ^ 32) % 256) &&& 0x3F) ||| 0x80,
        rndByte draws s.rngPos 1, rndByte draws s.rngPos 2, rndByte draws s.rngPos 3,
        rndByte draws s.rngPos 4, rndByte draws s.rngPos 5, rndByte draws s.rngPos 6,
        rndByte draws s.rngPos 7],
       ⟨(s.sequence_counter + 1) % 2 ^ 32, s.prev_timestamp, s.rngPos + 1⟩) := by
  rw [UuidV7GeneratorV2.generate]
  rw [if_pos h]
  simp only [if_neg (by omega : ¬ kMaxSequenceCounterValue < (s.sequence_counter + 1) % 2 ^ 32)]
  simp [generateRandomBlock, generateRandomBlockAux, rndByte, writeTimestampV2,
    tsByteV2, List.set, List.getD, List.replicate, List.range_succ]

/-- Normal form of a stalled-branch call of `UuidV7GeneratorV2` with rollover. -/
theorem generateV2_rollover (draws : Nat → Nat) (now : Nat) (s : UuidV7State)
    (h : now % 2 ^ 64 ≤ s.prev_timestamp)
    (hc : kMaxSequenceCounterValue < (s.sequence_counter + 1) % 2 ^ 32) :
    UuidV7GeneratorV2.generate draws now s =
      ([tsByteV2 ((s.prev_timestamp + 1) % 2 ^ 64) 0,
        tsByteV2 ((s.prev_timestamp + 1) % 2 ^ 64) 1,
        tsByteV2 ((s.prev_timestamp + 1) % 2 ^ 64) 2,
        tsByteV2 ((s.prev_timestamp + 1) % 2 ^ 64) 3,
        tsByteV2 ((s.prev_timestamp + 1) % 2 ^ 64) 4,
        tsByteV2 ((s.prev_timestamp + 1) % 2 ^ 64) 5,
        0x70, 0, 0x80,
        rndByte draws s.rngPos 1, rndByte draws s.rngPos 2, rndByte draws s.rngPos 3,
        rndByte draws s.rngPos 4, rndByte draws s.rngPos 5, rndByte draws s.rngPos 6,
        rndByte draws s.rngPos 7],
       ⟨0, (s.prev_timestamp + 1) % 2 ^ 64, s.rngPos + 1⟩) := by
  rw [UuidV7GeneratorV2.generate]
  rw [if_pos h]
  simp only [if_pos hc]
  simp [generateRandomBlock, generateRandomBlockAux, rndByte, writeTimestampV2,
    tsByteV2, List.set, List.getD, List.replicate, List.range_succ]

/-- The two timestamp-write styles produce the same byte at every position of the
48-bit field: shifting by 16 into a wrapping uint64 and taking big-endian bytes
equals extracting the bits directly. -/
theorem tsByteV1_eq_tsByteV2 (t i : Nat) (hi : i < 6) : tsByteV1 t i = tsByteV2 t i := by
  unfold tsByteV1 tsByteV2
  simp only [Nat.shiftLeft_eq, Nat.shiftRight_eq_div_pow]
  interval_cases i <;> · norm_num; omega

/-- A single call of the two generator variants agrees byte for byte and state
component for state component. -/
theorem generate_eq_generateV2 (draws : Nat → Nat) (now : Nat) (s : UuidV7State) :
    UuidV7Generator.generate draws now s = UuidV7GeneratorV2.generate draws now s := by
  rcases Nat.lt_or_ge s.prev_timestamp (now % 2 ^ 64) with h | h
  · rw [generate_fresh draws now s h, generateV2_fresh draws now s h]
    simp [tsByteV1_eq_tsByteV2]
  · rcases Nat.lt_or_ge kMaxSequenceCounterValue ((s.sequence_counter + 1) % 2 ^ 32) with hc | hc
    · rw [generate_rollover draws now s h hc, generateV2_rollover draws now s h hc]
      simp [tsByteV1_eq_tsByteV2]
    · rw [generate_stalled draws now s h hc, generateV2_stalled draws now s h hc]
      simp [tsByteV1_eq_tsByteV2]

/-- Call sequences of the two generator variants agree on every UUID emitted and on
the final state. -/
theorem run_eq_runV2 (draws : Nat → Nat) (nows : List Nat) (s : UuidV7State) :
    UuidV7Generator.run draws nows s = UuidV7GeneratorV2.run draws nows s := by
  induction nows generalizing s with
  | nil => rfl
  | cons t rest ih =>
    rw [UuidV7Generator.run, UuidV7GeneratorV2.run, generate_eq_generateV2, ih]

/-- A byte of the form `(x & 0x0F) | 0x70` — the final value of `uuid.data[6]` — is
`112` plus the low nibble of `x`. -/
theorem byte6_value (x : Nat) : (x &&& 0x0F) ||| 0x70 = 112 + x % 16 := by
  have h := and_0x0F_eq_mod x
  rw [h]
  exact or_0x70_eq_add (x % 16) (Nat.mod_lt x (by omega))

/-- A byte of the form `(y & 0x3F) | 0x80` — the final value of `uuid.data[8]` — is
`128` plus the low six bits of `y`. -/
theorem byte8_value (y : Nat) : (y &&& 0x3F) ||| 0x80 = 128 + y % 64 := by
  have h := and_0x3F_eq_mod y
  rw [h]
  exact or_0x80_eq_add (y % 64) (Nat.mod_lt y (by omega))

/-- The seed computed on the fresh branch is at most `0x1FFFF`: the guard bit of the
first random byte is cleared before the four top counter bits are extracted. -/
theorem fresh_seed_le (draws : Nat → Nat) (now : Nat) (s : UuidV7State)
    (h : s.prev_timestamp < now % 2 ^ 64) :
    (UuidV7Generator.generate draws now s).2.sequence_counter ≤ 0x1FFFF := by
  rw [generate_fresh draws now s h]
  have h6 := and_0xF7_and_0x0F (rndByte draws s.rngPos 0)
  have h7 := rndByte_lt draws s.rngPos 1
  have h8 := and_0x3F_eq_mod (rndByte draws s.rngPos 2)
  simp only [Nat.shiftLeft_eq]
  omega

/-- One `generate` call establishes the counter bound `≤ kMaxSequenceCounterValue`,
whatever the clock reading and the random draws: the rollover test caps the stalled
branch and the guard bit caps the fresh seed. -/
theorem counter_le_step (draws : Nat → Nat) (now : Nat) (s : UuidV7State) :
    (UuidV7Generator.generate draws now s).2.sequence_counter ≤ kMaxSequenceCounterValue := by
  rcases Nat.lt_or_ge s.prev_timestamp (now % 2 ^ 64) with hb | hb
  · have := fresh_seed_le draws now s hb
    unfold kMaxSequenceCounterValue
    omega
  · rcases Nat.lt_or_ge kMaxSequenceCounterValue ((s.sequence_counter + 1) % 2 ^ 32) with hc | hc
    · rw [generate_rollover draws now s hb hc]
      exact Nat.zero_le _
    · rw [generate_stalled draws now s hb hc]
      exact hc

/-- A run of stalled-branch calls short enough to stay within the counter bound
leaves `prev_timestamp` untouched and adds exactly one to the counter per call. -/
theorem run_stalled (draws : Nat → Nat) (nows : List Nat) (s : UuidV7State)
    (hst : ∀ t ∈ nows, t % 2 ^ 64 ≤ s.prev_timestamp)
    (hlen : s.sequence_counter + nows.length ≤ kMaxSequenceCounterValue) :
    (UuidV7Generator.run draws nows s).2.prev_timestamp = s.prev_timestamp ∧
    (UuidV7Generator.run draws nows s).2.sequence_counter =
      s.sequence_counter + nows.length := by
  induction nows generalizing s with
  | nil => simp [UuidV7Generator.run]
  | cons t rest ih =>
    have hlen1 : s.sequence_counter + 1 ≤ kMaxSequenceCounterValue := by
      have := List.length_cons t rest
      omega
    have hmod : (s.sequence_counter + 1) % 2 ^ 32 = s.sequence_counter + 1 :=
      Nat.mod_eq_of_lt (by unfold kMaxSequenceCounterValue at hlen1; omega)
    have hc : (s.sequence_counter + 1) % 2 ^ 32 ≤ kMaxSequenceCounterValue := by omega
    have ht : t % 2 ^ 64 ≤ s.prev_timestamp := hst t (by simp)
    rw [UuidV7Generator.run]
    simp only [generate_stalled draws t s ht hc]
    have hrest := ih ⟨(s.sequence_counter + 1) % 2 ^ 32, s.prev_timestamp, s.rngPos + 1⟩
      (fun u hu => hst u (by simp [hu]))
      (by simp only [hmod]; have := List.length_cons t rest; omega)
    simp only at hrest
    have hlc : (t :: rest).length = rest.length + 1 := List.length_cons t rest
    rw [hrest.1, hrest.2, hmod, hlc]
    omega

/-- The version-nibble overwrite forces the high nibble of byte 6 to `0b0111`. -/
theorem version_nibble (x : Nat) : ((x &&& 0x0F) ||| 0x70) >>> 4 = 7 := by
  rw [byte6_value, Nat.shiftRight_eq_div_pow]
  omega

/-- The variant overwrite forces the top two bits of byte 8 to `0b10`. -/
theorem variant_bits (y : Nat) : ((y &&& 0x3F) ||| 0x80) >>> 6 = 2 := by
  rw [byte8_value, Nat.shiftRight_eq_div_pow]
  omega

/-- Every byte of a `generate` result is below 256. -/
theorem generate_bytes_lt (draws : Nat → Nat) (now : Nat) (s : UuidV7State) :
    ∀ b ∈ (UuidV7Generator.generate draws now s).1, b < 256 := by
  have hts : ∀ t i : Nat, tsByteV1 t i < 256 := by
    intro t i
    unfold tsByteV1
    omega
  have hb6 : ∀ x : Nat, (x &&& 0x0F) ||| 0x70 < 256 := by
    intro x
    rw [byte6_value]
    omega
  have hb8 : ∀ y : Nat, (y &&& 0x3F) ||| 0x80 < 256 := by
    intro y
    rw [byte8_value]
    omega
  have hrb := rndByte_lt draws
  rcases Nat.lt_or_ge s.prev_timestamp (now % 2 ^ 64) with h | h
  · rw [generate_fresh draws now s h]
    simp only [List.forall_mem_cons, List.not_mem_nil, false_implies, implies_true, and_true]
    exact ⟨hts _ _, hts _ _, hts _ _, hts _ _, hts _ _, hts _ _, hb6 _, hrb _ _, hb8 _,
      hrb _ _, hrb _ _, hrb _ _, hrb _ _, hrb _ _, hrb _ _, hrb _ _⟩
  · rcases Nat.lt_or_ge kMaxSequenceCounterValue ((s.sequence_counter + 1) % 2 ^ 32) with hc | hc
    · rw [generate_rollover draws now s h hc]
      simp only [List.forall_mem_cons, List.not_mem_nil, false_implies, implies_true, and_true]
      exact ⟨hts _ _, hts _ _, hts _ _, hts _ _, hts _ _, hts _ _, by omega, by omega, by omega,
        hrb _ _, hrb _ _, hrb _ _, hrb _ _, hrb _ _, hrb _ _, hrb _ _⟩
    · rw [generate_stalled draws now s h hc]
      simp only [List.forall_mem_cons, List.not_mem_nil, false_implies, implies_true, and_true]
      exact ⟨hts _ _, hts _ _, hts _ _, hts _ _, hts _ _, hts _ _, hb6 _, by omega, hb8 _,
        hrb _ _, hrb _ _, hrb _ _, hrb _ _, hrb _ _, hrb _ _, hrb _ _⟩

/-- Every `generate` result has exactly 16 bytes. -/
theorem generate_length (draws : Nat → Nat) (now : Nat) (s : UuidV7State) :
    (UuidV7Generator.generate draws now s).1.length = 16 := by
  rcases Nat.lt_or_ge s.prev_timestamp (now % 2 ^ 64) with h | h
  · rw [generate_fresh draws now s h]
    rfl
  · rcases Nat.lt_or_ge kMaxSequenceCounterValue ((s.sequence_counter + 1) % 2 ^ 32) with hc | hc
    · rw [generate_rollover draws now s h hc]
      rfl
    · rw [generate_stalled draws now s h hc]
      rfl

/-- Hex digits of values below 16 decode back to the value. -/
theorem hexVal_hexDigit : ∀ v : Fin 16, hexVal (hexDigit (v : Nat)) = (v : Nat) := by
  decide

/-- Hex digits of values below 16 are lower-case hex characters. -/
theorem isLowerHexDigit_hexDigit : ∀ v : Fin 16, isLowerHexDigit (hexDigit (v : Nat)) = true := by
  decide

/-- `toHexChars` emits two characters per byte. -/
theorem toHexChars_length (l : List Nat) : (toHexChars l).length = 2 * l.length := by
  induction l with
  | nil => rfl
  | cons b rest ih =>
    simp only [toHexChars, List.length_cons, ih]
    omega

/-- Decoding inverts `toHexChars` on byte lists. -/
theorem decodeHexChars_toHexChars (l : List Nat) (h : ∀ b ∈ l, b < 256) :
    decodeHexChars (toHexChars l) = l := by
  induction l with
  | nil => rfl
  | cons b rest ih =>
    have hb : b < 256 := h b (by simp)
    have h1 := hexVal_hexDigit ⟨b / 16, by omega⟩
    have h2 := hexVal_hexDigit ⟨b % 16, by omega⟩
    simp only at h1 h2
    simp only [toHexChars, decodeHexChars, h1, h2, ih (fun u hu => h u (by simp [hu]))]
    congr 1
    omega

/-- All characters emitted by `toHexChars` on a byte list are lower-case hex. -/
theorem toHexChars_all_lower (l : List Nat) (h : ∀ b ∈ l, b < 256) :
    (toHexChars l).all isLowerHexDigit = true := by
  induction l with
  | nil => rfl
  | cons b rest ih =>
    have hb : b < 256 := h b (by simp)
    have h1 := isLowerHexDigit_hexDigit ⟨b / 16, by omega⟩
    have h2 := isLowerHexDigit_hexDigit ⟨b % 16, by omega⟩
    simp only at h1 h2
    simp only [toHexChars, List.all_cons, h1, h2, ih (fun u hu => h u (by simp [hu])),
      Bool.true_and]

/-- Specialization of `or_0x70_eq_add` to a value already reduced modulo 8. -/
theorem mod8_or_0x70 (x : Nat) : x % 8 ||| 0x70 = 112 + x % 8 :=
  or_0x70_eq_add (x % 8) (by omega)

/-- Specialization of `or_0x80_eq_add` to a value already reduced modulo 64. -/
theorem mod64_or_0x80 (x : Nat) : x % 64 ||| 0x80 = 128 + x % 64 :=
  or_0x80_eq_add (x % 64) (by omega)

/-- Bit 3 of a byte of the form `112 + (x % 8)` is clear. -/
theorem add112_mod8_and_0x08 (x : Nat) : (112 + x % 8) &&& 0x08 = 0 := by
  have bridge : ∀ v : Fin 8, (112 + (v : Nat)) &&& 0x08 = 0 := by decide
  exact bridge ⟨x % 8, by omega⟩

end BoostUuid7

namespace BoostUuid7

/-- C1: the spec claims strict intra-instance monotonicity of `generate()` under
arbitrary per-call clock readings, the clock standing still or jumping backward
included.  The code violates this: from the initial state, with the all-zero random
stream, a call at clock reading 1000 followed by one at reading 995 (a backward
jump) returns a second UUID that is strictly SMALLER as a big-endian 128-bit
integer, because the stalled branch writes the stale clock reading — not
`prev_timestamp` — into the timestamp field. -/
theorem C1_backward_clock_jump_breaks_monotonicity :
    uuidVal (UuidV7Generator.generate (fun _ => 0) 995
        (UuidV7Generator.generate (fun _ => 0) 1000 initialState).2).1 <
      uuidVal (UuidV7Generator.generate (fun _ => 0) 1000 initialState).1 := by
  decide

/-- C2: the spec says that on a stalled call without rollover the emitted timestamp
equals the unchanged `prev_timestamp`.  The code instead emits the clock reading:
after a fresh call at reading 1000 (so `prev_timestamp = 1000`), a stalled call at
reading 995 increments the counter to 1 and keeps `prev_timestamp = 1000` as the
spec says, but the emitted 48-bit timestamp field is 995, not 1000. -/
theorem C2_stalled_branch_emits_clock_reading :
    tsField (UuidV7Generator.generate (fun _ => 0) 995
        (UuidV7Generator.generate (fun _ => 0) 1000 initialState).2).1 = 995 ∧
    (UuidV7Generator.generate (fun _ => 0) 995
        (UuidV7Generator.generate (fun _ => 0) 1000 initialState).2).2.prev_timestamp = 1000 ∧
    (UuidV7Generator.generate (fun _ => 0) 995
        (UuidV7Generator.generate (fun _ => 0) 1000 initialState).2).2.sequence_counter = 1 := by
  decide

/-- C3: on every fresh-branch call (clock reading strictly above `prev_timestamp`),
bit `0x08` of the returned byte 6 is clear, the stored `sequence_counter` equals
`((byte6 & 0x0F) << 14) + (byte7 << 6) + (byte8 & 0x3F)` over the returned bytes,
and hence lies in `[0, 0x1FFFF]`; with an all-ones random stream the returned byte 6
is `0x77` and the stored counter is `0x1FFFF`. -/
theorem C3_fresh_branch_counter_seeding (draws : Nat → Nat) (now : Nat) (s : UuidV7State)
    (h : s.prev_timestamp < now % 2 ^ 64) :
    ((UuidV7Generator.generate draws now s).1.getD 6 0) &&& 0x08 = 0 ∧
    (UuidV7Generator.generate draws now s).2.sequence_counter =
      (((UuidV7Generator.generate draws now s).1.getD 6 0 &&& 0x0F) <<< 14) +
        (((UuidV7Generator.generate draws now s).1.getD 7 0) <<< 6) +
        ((UuidV7Generator.generate draws now s).1.getD 8 0 &&& 0x3F) ∧
    (UuidV7Generator.generate draws now s).2.sequence_counter ≤ 0x1FFFF ∧
    ((UuidV7Generator.generate (fun _ => 2 ^ 64 - 1) 1 initialState).1.getD 6 0 = 0x77 ∧
      (UuidV7Generator.generate (fun _ => 2 ^ 64 - 1) 1 initialState).2.sequence_counter =
        0x1FFFF) := by
  rw [generate_fresh draws now s h]
  refine ⟨?_, ?_, ?_, by decide, by decide⟩
  · show (((rndByte draws s.rngPos 0 &&& 0xF7) &&& 0x0F) ||| 0x70) &&& 0x08 = 0
    rw [and_0xF7_and_0x0F, mod8_or_0x70]
    exact add112_mod8_and_0x08 _
  · show (rndByte draws s.rngPos 0 &&& 0xF7 &&& 0x0F) <<< 14 +
        (rndByte draws s.rngPos 1) <<< 6 + (rndByte draws s.rngPos 2 &&& 0x3F) =
      (((((rndByte draws s.rngPos 0 &&& 0xF7) &&& 0x0F) ||| 0x70) &&& 0x0F) <<< 14) +
        ((rndByte draws s.rngPos 1) <<< 6) +
        (((rndByte draws s.rngPos 2 &&& 0x3F) ||| 0x80) &&& 0x3F)
    rw [and_0xF7_and_0x0F, mod8_or_0x70, and_0x3F_eq_mod, mod64_or_0x80]
    rw [and_0x0F_eq_mod, and_0x3F_eq_mod]
    simp only [Nat.shiftLeft_eq]
    omega
  · have h6 := and_0xF7_and_0x0F (rndByte draws s.rngPos 0)
    have h7 := rndByte_lt draws s.rngPos 1
    have h8 := and_0x3F_eq_mod (rndByte draws s.rngPos 2)
    simp only [Nat.shiftLeft_eq]
    omega

/-- Witness for C3 at the all-ones random stream, clock reading 1, initial state. -/
theorem C3_fresh_branch_counter_seeding_witness :
    initialState.prev_timestamp < 1 % 2 ^ 64 ∧
    (((UuidV7Generator.generate (fun _ => 2 ^ 64 - 1) 1 initialState).1.getD 6 0) &&& 0x08 = 0 ∧
      (UuidV7Generator.generate (fun _ => 2 ^ 64 - 1) 1 initialState).2.sequence_counter =
        (((UuidV7Generator.generate (fun _ => 2 ^ 64 - 1) 1 initialState).1.getD 6 0 &&&
            0x0F) <<< 14) +
          (((UuidV7Generator.generate (fun _ => 2 ^ 64 - 1) 1 initialState).1.getD 7 0) <<< 6) +
          ((UuidV7Generator.generate (fun _ => 2 ^ 64 - 1) 1 initialState).1.getD 8 0 &&&
            0x3F) ∧
      (UuidV7Generator.generate (fun _ => 2 ^ 64 - 1) 1 initialState).2.sequence_counter ≤
        0x1FFFF ∧
      ((UuidV7Generator.generate (fun _ => 2 ^ 64 - 1) 1 initialState).1.getD 6 0 = 0x77 ∧
        (UuidV7Generator.generate (fun _ => 2 ^ 64 - 1) 1 initialState).2.sequence_counter =
          0x1FFFF)) :=
  ⟨by decide,
    C3_fresh_branch_counter_seeding (fun _ => 2 ^ 64 - 1) 1 initialState (by decide)⟩

/-- C4: every UUID returned by `generate`, on the fresh, stalled and rollover
branches alike, has the 4 bits at positions 48..51 (high nibble of byte 6) equal to
`0b0111` and the 2 bits at positions 64..65 (top two bits of byte 8) equal to
`0b10`. -/
theorem C4_version_and_variant_bits (draws : Nat → Nat) (now : Nat) (s : UuidV7State) :
    ((UuidV7Generator.generate draws now s).1.getD 6 0) >>> 4 = 0x7 ∧
    ((UuidV7Generator.generate draws now s).1.getD 8 0) >>> 6 = 2 := by
  rcases Nat.lt_or_ge s.prev_timestamp (now % 2 ^ 64) with h | h
  · rw [generate_fresh draws now s h]
    exact ⟨version_nibble _, variant_bits _⟩
  · rcases Nat.lt_or_ge kMaxSequenceCounterValue ((s.sequence_counter + 1) % 2 ^ 32) with hc | hc
    · rw [generate_rollover draws now s h hc]
      constructor
      · show (0x70 : Nat) >>> 4 = 0x7
        decide
      · show (0x80 : Nat) >>> 6 = 2
        decide
    · rw [generate_stalled draws now s h hc]
      exact ⟨version_nibble _, variant_bits _⟩

/-- C5: the counter bound `sequence_counter ≤ 0x3FFFF` holds in the initial state
and is preserved by every `generate` call, whatever the clock reading and the
random draws. -/
theorem C5_counter_bound_invariant :
    initialState.sequence_counter ≤ kMaxSequenceCounterValue ∧
    ∀ (draws : Nat → Nat) (now : Nat) (s : UuidV7State),
      s.sequence_counter ≤ kMaxSequenceCounterValue →
      (UuidV7Generator.generate draws now s).2.sequence_counter ≤ kMaxSequenceCounterValue :=
  ⟨Nat.zero_le _, fun draws now s _ => counter_le_step draws now s⟩

/-- Witness for C5 at a state holding the maximal counter value, where the stalled
call rolls the counter over to 0. -/
theorem C5_counter_bound_invariant_witness :
    (⟨0x3FFFF, 7, 3⟩ : UuidV7State).sequence_counter ≤ kMaxSequenceCounterValue ∧
    (UuidV7Generator.generate (fun _ => 5) 7
        (⟨0x3FFFF, 7, 3⟩ : UuidV7State)).2.sequence_counter ≤ kMaxSequenceCounterValue :=
  ⟨by decide, C5_counter_bound_invariant.2 (fun _ => 5) 7 ⟨0x3FFFF, 7, 3⟩ (by decide)⟩

/-- C6: a fresh-branch call seeds the counter with at least `0x20000` increments of
headroom: any run of at most `0x20000` subsequent stalled-branch calls (readings not
above the stored timestamp) completes without rollover — `prev_timestamp` stays
put and the counter advances by exactly one per call. -/
theorem C6_rollover_headroom (draws : Nat → Nat) (now : Nat) (s : UuidV7State)
    (hfresh : s.prev_timestamp < now % 2 ^ 64) (nows : List Nat)
    (hstall : ∀ t ∈ nows, t % 2 ^ 64 ≤ (UuidV7Generator.generate draws now s).2.prev_timestamp)
    (hlen : nows.length ≤ 0x20000) :
    (UuidV7Generator.run draws nows (UuidV7Generator.generate draws now s).2).2.prev_timestamp =
      (UuidV7Generator.generate draws now s).2.prev_timestamp ∧
    (UuidV7Generator.run draws nows (UuidV7Generator.generate draws now s).2).2.sequence_counter =
      (UuidV7Generator.generate draws now s).2.sequence_counter + nows.length := by
  have hseed := fresh_seed_le draws now s hfresh
  exact run_stalled draws nows (UuidV7Generator.generate draws now s).2 hstall
    (by unfold kMaxSequenceCounterValue; omega)

/-- Witness for C6: fresh call at reading 1, then two stalled calls at readings 0
and 1. -/
theorem C6_rollover_headroom_witness :
    initialState.prev_timestamp < 1 % 2 ^ 64 ∧
    (∀ t ∈ ([0, 1] : List Nat), t % 2 ^ 64 ≤
      (UuidV7Generator.generate (fun _ => 0) 1 initialState).2.prev_timestamp) ∧
    ([0, 1] : List Nat).length ≤ 0x20000 ∧
    ((UuidV7Generator.run (fun _ => 0) [0, 1]
        (UuidV7Generator.generate (fun _ => 0) 1 initialState).2).2.prev_timestamp =
      (UuidV7Generator.generate (fun _ => 0) 1 initialState).2.prev_timestamp ∧
    (UuidV7Generator.run (fun _ => 0) [0, 1]
        (UuidV7Generator.generate (fun _ => 0) 1 initialState).2).2.sequence_counter =
      (UuidV7Generator.generate (fun _ => 0) 1 initialState).2.sequence_counter +
        ([0, 1] : List Nat).length) :=
  ⟨by decide, by decide, by decide,
    C6_rollover_headroom (fun _ => 0) 1 initialState (by decide) [0, 1] (by decide) (by decide)⟩

/-- C7: from every starting state and for every sequence of clock readings over any
random stream, `UuidV7Generator` (htobe64 + memcpy timestamp write) and
`UuidV7GeneratorV2` (byte-wise timestamp write) return identical 16-byte UUIDs and
reach identical states. -/
theorem C7_generator_variant_equivalence (draws : Nat → Nat) (nows : List Nat)
    (s : UuidV7State) :
    UuidV7Generator.run draws nows s = UuidV7GeneratorV2.run draws nows s :=
  run_eq_runV2 draws nows s

/-- C8: for every block length `N` with `1 ≤ N ≤ 16`, the block filler sets byte `k`
to `(d_(k / 8) >> ((k % 8) * 8)) & 0xFF` where `d_j` is the j-th u64 drawn from
position `pos` on, and it consumes `1 + (N - 1) / 8` draws: one before the first
byte and a fresh one at each subsequent 8-byte group. -/
theorem C8_random_block_filler (draws : Nat → Nat) (pos N : Nat)
    (h1 : 1 ≤ N) (h2 : N ≤ 16) :
    (generateRandomBlock draws pos N).1 =
      (List.range N).map
        (fun k => (draws (pos + k / 8) % 2 ^ 64) >>> (k % 8 * 8) &&& 0xFF) ∧
    (generateRandomBlock draws pos N).2 = pos + 1 + (N - 1) / 8 := by
  interval_cases N <;>
    exact ⟨by simp [generateRandomBlock, generateRandomBlockAux, List.range_succ],
      by simp [generateRandomBlock, generateRandomBlockAux]⟩

/-- Witness for C8 at `N = 10` over the stream `i ↦ i + 1`. -/
theorem C8_random_block_filler_witness :
    1 ≤ 10 ∧ 10 ≤ 16 ∧
    ((generateRandomBlock (fun i => i + 1) 0 10).1 =
      (List.range 10).map
        (fun k => ((fun i => i + 1) (0 + k / 8) % 2 ^ 64) >>> (k % 8 * 8) &&& 0xFF) ∧
    (generateRandomBlock (fun i => i + 1) 0 10).2 = 0 + 1 + (10 - 1) / 8) :=
  ⟨by decide, by decide,
    C8_random_block_filler (fun i => i + 1) 0 10 (by decide) (by decide)⟩

/-- C9: the string entry point returns exactly 32 characters, all lower-case hex
digits, and decoding them two-per-byte yields exactly the 16 bytes of the underlying
binary `generate` call it wraps — no dashes or braces are inserted. -/
theorem C9_hex_string_form (draws : Nat → Nat) (now : Nat) (s : UuidV7State) :
    (GenerateUuid7 draws now s).length = 32 ∧
    (GenerateUuid7 draws now s).data.all isLowerHexDigit = true ∧
    hexDecode (GenerateUuid7 draws now s) = (UuidV7Generator.generate draws now s).1 := by
  have hlt := generate_bytes_lt draws now s
  have hlen := generate_length draws now s
  refine ⟨?_, ?_, ?_⟩
  · simp [GenerateUuid7, ToHex, String.length, toHexChars_length, hlen]
  · simp [GenerateUuid7, ToHex, toHexChars_all_lower _ hlt]
  · simp [GenerateUuid7, ToHex, hexDecode, decodeHexChars_toHexChars _ hlt]

/-- C10: for every timestamp value `t`, values at or above `2 ^ 48` included, both
timestamp-write styles place exactly the low 48 bits of `t` into bytes 0..5 in
big-endian order and leave bytes 6..15 untouched. -/
theorem C10_timestamp_truncation
    (t a0 a1 a2 a3 a4 a5 a6 a7 a8 a9 a10 a11 a12 a13 a14 a15 : Nat) :
    writeTimestampV1 t [a0, a1, a2, a3, a4, a5, a6, a7, a8, a9, a10, a11, a12, a13, a14, a15] =
      tsBytesBE48 t ++ [a6, a7, a8, a9, a10, a11, a12, a13, a14, a15] ∧
    writeTimestampV2 t [a0, a1, a2, a3, a4, a5, a6, a7, a8, a9, a10, a11, a12, a13, a14, a15] =
      tsBytesBE48 t ++ [a6, a7, a8, a9, a10, a11, a12, a13, a14, a15] := by
  constructor
  · simp only [writeTimestampV1, htobe64bytes, tsBytesBE48, List.range_succ]
    simp [Nat.shiftLeft_eq, Nat.shiftRight_eq_div_pow]
    omega
  · simp only [writeTimestampV2, tsBytesBE48, List.range_succ]
    simp [List.set, Nat.shiftLeft_eq, Nat.shiftRight_eq_div_pow]
    omega

end BoostUuid7
